import Mathlib

/-!
Verification development for the machine-hub telemetry pipeline.

The definitions below are a shallow embedding of the Python sources of the
repository (FastAPI application under machine-hub-api/app): the payload
normalizer parse_glances_data, the registry/store operations in crud.py, the
push-ingestion handler receive_glances_data in webhook_router.py, the
count-cap retention pass cleanup_snapshots_by_count, and the polling start
endpoint in polling_router.py.  Python floats are modelled as rationals
(IEEE rounding is not modelled; no statement below depends on it), machine
integers as Int/Nat, raised exceptions as an Except monad, and database
state as explicit record passing.
-/

namespace MachineHub

/-- Python/JSON values as they occur in a Glances payload.  Python None is
modelled as null; floats as rationals. -/
inductive JValue where
  | null
  | bool (b : Bool)
  | int (n : Int)
  | float (q : ℚ)
  | str (s : String)
  | list (xs : List JValue)
  | obj (kvs : List (String × JValue))
  deriving Repr

mutual

/-- Structural Boolean equality on payload values.  It models the Python
comparisons appearing in the embedded code, each of which has a string
operand; cross-type numeric equality (Python 1 == 1.0) is therefore not
needed and not modelled. -/
def JValue.beq : JValue → JValue → Bool
  | .null, .null => true
  | .bool a, .bool b => a == b
  | .int a, .int b => a == b
  | .float a, .float b => a == b
  | .str a, .str b => a == b
  | .list xs, .list ys => beqList xs ys
  | .obj xs, .obj ys => beqObj xs ys
  | _, _ => false

/-- Elementwise equality of value lists. -/
def beqList : List JValue → List JValue → Bool
  | [], [] => true
  | x :: xs, y :: ys => JValue.beq x y && beqList xs ys
  | _, _ => false

/-- Elementwise equality of key-value lists. -/
def beqObj : List (String × JValue) → List (String × JValue) → Bool
  | [], [] => true
  | (k1, v1) :: xs, (k2, v2) :: ys => k1 == k2 && JValue.beq v1 v2 && beqObj xs ys
  | _, _ => false

end

instance : BEq JValue := ⟨JValue.beq⟩

/-- A JSON object / Python dict, as an association list with unique keys
(first binding wins on lookup, matching dict semantics). -/
abbrev JDict := List (String × JValue)

/-- Python data.get(k, default). -/
def dictGetD (d : JDict) (k : String) (dflt : JValue) : JValue :=
  (List.lookup k d).getD dflt

/-- Python data.get(k), whose default is None. -/
def dictGet (d : JDict) (k : String) : JValue :=
  dictGetD d k .null

/-- Python membership test k in data. -/
def dictHas (d : JDict) (k : String) : Bool :=
  (List.lookup k d).isSome

/-- Python truthiness of a value. -/
def pyTruthy : JValue → Bool
  | .null => false
  | .bool b => b
  | .int n => n != 0
  | .float q => q != 0
  | .str s => s != ""
  | .list xs => !xs.isEmpty
  | .obj kvs => !kvs.isEmpty

/-- The exception classes the embedded code can raise. -/
inductive PyErr where
  | typeError
  | valueError
  deriving Repr, DecidableEq

/-- Numeric value of ints, floats and bools (bool is an int subtype in
Python); none for every other type. -/
def toNum? : JValue → Option ℚ
  | .int n => some (n : ℚ)
  | .float q => some q
  | .bool b => some (if b then 1 else 0)
  | _ => none

/-- Python division of a payload value by the constant 1024**3 (bytes to
GiB).  True division always yields a float; non-numeric operands raise
TypeError. -/
def divGiB (v : JValue) : Except PyErr JValue :=
  match toNum? v with
  | some q => .ok (.float (q / 1073741824))
  | none => .error .typeError

/-- The whitespace characters of the regex class backslash-s. -/
def isPySpace (c : Char) : Bool :=
  c == ' ' || c == '\t' || c == '\n' || c == '\x0b' || c == '\x0c' || c == '\r'

/-- Numeric value of a run of decimal digit characters. -/
def digitsVal (cs : List Char) : Nat :=
  cs.foldl (fun a c => a * 10 + (c.toNat - 48)) 0

/-- Model of Python float(s) on strings: optional surrounding whitespace,
optional sign, decimal digits with an optional fractional part.  Exponents,
infinities, nan and digit underscores are not modelled: no statement below
exercises them. -/
def strToFloat? (s : String) : Option ℚ :=
  let cs := s.toList.dropWhile isPySpace
  let cs := (cs.reverse.dropWhile isPySpace).reverse
  let sgncs : ℚ × List Char :=
    match cs with
    | '-' :: t => (-1, t)
    | '+' :: t => (1, t)
    | t => (1, t)
  let intPart := sgncs.2.takeWhile Char.isDigit
  let rest := sgncs.2.dropWhile Char.isDigit
  match rest with
  | [] => if intPart.isEmpty then none else some (sgncs.1 * digitsVal intPart)
  | '.' :: frac =>
      if frac.all Char.isDigit && !(intPart.isEmpty && frac.isEmpty) then
        some (sgncs.1 * ((digitsVal intPart : ℚ) +
          (digitsVal frac : ℚ) / (10 : ℚ) ^ frac.length))
      else none
  | _ => none

/-- Python float(v): numbers and bools pass through, numeric strings are
parsed (ValueError otherwise), every other type raises TypeError. -/
def pyFloat : JValue → Except PyErr ℚ
  | .str s =>
      match strToFloat? s with
      | some q => .ok q
      | none => .error .valueError
  | v =>
      match toNum? v with
      | some q => .ok q
      | none => .error .typeError

/-- Truncation of a rational toward zero, as Python int(float) does. -/
def ratTrunc (q : ℚ) : Int :=
  if 0 ≤ q then Rat.floor q else -(Rat.floor (-q))

/-- Python int(v) as used on the non-string uptime branch: ints and bools
pass through, floats truncate toward zero, every other type raises
TypeError.  Strings never reach this call site: they take the regex
branch. -/
def pyInt : JValue → Except PyErr Int
  | .int n => .ok n
  | .bool b => .ok (if b then 1 else 0)
  | .float q => .ok (ratTrunc q)
  | _ => .error .typeError

/-- Python str(v).  Exact where the claims need it (strings, None, bools,
ints); the float and collection renderings are schematic placeholders, which
no statement below depends on. -/
def pyStr : JValue → String
  | .null => "None"
  | .bool b => if b then "True" else "False"
  | .int n => toString n
  | .str s => s
  | .float q => toString q
  | .list _ => "<list>"
  | .obj _ => "<dict>"

/-- Greedy run of one or more decimal digits at the head of the character
list, returning the captured group value and the remainder. -/
def digitRun? (cs : List Char) : Option (Nat × List Char) :=
  let ds := cs.takeWhile Char.isDigit
  if ds.isEmpty then none else some (digitsVal ds, cs.drop ds.length)

/-- One attempted match, anchored at the head of the list, of the day
pattern: one or more digits, one or more whitespace characters, then the
letters d a y (the optional trailing s does not affect the captured group).
Digits, whitespace and letters are pairwise disjoint, so the greedy match
needs no backtracking. -/
def daysAt (cs : List Char) : Option Nat := do
  let (d, cs) ← digitRun? cs
  let ws := cs.takeWhile isPySpace
  if ws.isEmpty then none else
    match cs.drop ws.length with
    | 'd' :: 'a' :: 'y' :: _ => some d
    | _ => none

/-- re.search of the day pattern: leftmost match over all start positions. -/
def searchDays : List Char → Option Nat
  | [] => none
  | c :: cs =>
      match daysAt (c :: cs) with
      | some d => some d
      | none => searchDays cs

/-- One attempted match, anchored at the head of the list, of the H:MM:SS
pattern: three digit groups separated by colons. -/
def timeAt (cs : List Char) : Option (Nat × Nat × Nat) := do
  let (h, cs) ← digitRun? cs
  match cs with
  | ':' :: cs =>
      match digitRun? cs with
      | some (m, cs) =>
          match cs with
          | ':' :: cs =>
              match digitRun? cs with
              | some (s, _) => some (h, m, s)
              | none => none
          | _ => none
      | none => none
  | _ => none

/-- re.search of the H:MM:SS pattern: leftmost match. -/
def searchTime : List Char → Option (Nat × Nat × Nat)
  | [] => none
  | c :: cs =>
      match timeAt (c :: cs) with
      | some t => some t
      | none => searchTime cs

/-- The uptime string branch of the normalizer: independent searches for the
day count and the H:MM:SS group; every component defaults to 0 when its
pattern is absent.  The surrounding try/except in the source is unreachable
for string input (the searches and digit-group conversions cannot raise), so
it is not modelled. -/
def parseUptimeStr (s : String) : Int :=
  let days := (searchDays s.toList).getD 0
  let t := (searchTime s.toList).getD (0, 0, 0)
  (days : Int) * 86400 + (t.1 : Int) * 3600 + (t.2.1 : Int) * 60 + (t.2.2 : Int)

/-- The normalized record built by parse_glances_data.  In the source it is
a dict whose metric entries are initialized to None and then conditionally
overwritten; None is modelled as JValue.null.  The three trailing blob
entries are only inserted into the dict when their section is present, which
is modelled by an Option. -/
structure Parsed where
  hostname : JValue
  cpu_percent : JValue := .null
  memory_percent : JValue := .null
  memory_used : JValue := .null
  memory_total : JValue := .null
  uptime : JValue := .null
  load_avg : JValue := .null
  os_name : JValue := .null
  os_version : JValue := .null
  cpu_user : JValue := .null
  cpu_system : JValue := .null
  cpu_iowait : JValue := .null
  cpu_count : JValue := .null
  swap_percent : JValue := .null
  swap_used : JValue := .null
  swap_total : JValue := .null
  swap_free : JValue := .null
  battery_percent : JValue := .null
  battery_status : JValue := .null
  fs_data : JValue := .null
  sensors_data : Option JValue := none
  alert_data : Option JValue := none
  network_data : Option JValue := none
  deriving Repr

/-- Hostname extraction: prefer system.hostname when system is a dict, else
the root-level hostname, else the literal "unknown". -/
def initParsed (data : JDict) : Parsed :=
  { hostname :=
      match List.lookup "system" data with
      | some (.obj sys) => dictGetD sys "hostname" (.str "unknown")
      | _ => dictGetD data "hostname" (.str "unknown") }

/-- The cpu section: passthrough of total/user/system/iowait; cpucore gives
the core count by length when it is a list or dict, or directly when it is
an int (which in Python includes bool). -/
def parseCpu (data : JDict) (p : Parsed) : Parsed :=
  match List.lookup "cpu" data with
  | some (.obj cpu) =>
      let p := { p with
        cpu_percent := dictGet cpu "total"
        cpu_user := dictGet cpu "user"
        cpu_system := dictGet cpu "system"
        cpu_iowait := dictGet cpu "iowait" }
      match List.lookup "cpucore" cpu with
      | some (.list xs) => { p with cpu_count := .int xs.length }
      | some (.obj kvs) => { p with cpu_count := .int kvs.length }
      | some (.int n) => { p with cpu_count := .int n }
      | some (.bool b) => { p with cpu_count := .bool b }
      | _ => p
  | _ => p

/-- One optional byte field of the mem section: when the key is present its
value is divided by 1024**3 (raising TypeError on non-numbers) and stored
through upd. -/
def memField (mem : JDict) (k : String) (upd : Parsed → JValue → Parsed)
    (p : Parsed) : Except PyErr Parsed :=
  match List.lookup k mem with
  | some v => do
      let g ← divGiB v
      pure (upd p g)
  | none => pure p

/-- The mem section: percent passthrough; used and total divided by 1024**3,
which raises TypeError when the stored value is not a number. -/
def parseMem (data : JDict) (p : Parsed) : Except PyErr Parsed :=
  match List.lookup "mem" data with
  | some (.obj mem) => do
      let p := { p with memory_percent := dictGet mem "percent" }
      let p ← memField mem "used" (fun p g => { p with memory_used := g }) p
      memField mem "total" (fun p g => { p with memory_total := g }) p
  | _ => .ok p

/-- One optional byte field of the memswap section: when the key is present
its value is coerced with float() and divided by 1024**3, then stored
through upd. -/
def swapField (swap : JDict) (k : String) (upd : Parsed → JValue → Parsed)
    (p : Parsed) : Except PyErr Parsed :=
  match List.lookup k swap with
  | some v => do
      let q ← pyFloat v
      pure (upd p (.float (q / 1073741824)))
  | none => pure p

/-- The memswap section: percent passthrough; used, total and free coerced
with float() and divided by 1024**3. -/
def parseSwap (data : JDict) (p : Parsed) : Except PyErr Parsed :=
  match List.lookup "memswap" data with
  | some (.obj swap) => do
      let p := { p with swap_percent := dictGet swap "percent" }
      let p ← swapField swap "used" (fun p v => { p with swap_used := v }) p
      let p ← swapField swap "total" (fun p v => { p with swap_total := v }) p
      swapField swap "free" (fun p v => { p with swap_free := v }) p
  | _ => .ok p

/-- The uptime entry: strings go through the regex extraction; any other
truthy value is coerced with int() (TypeError for non-numbers); a missing
key or falsy value gives 0. -/
def parseUptime (data : JDict) (p : Parsed) : Except PyErr Parsed :=
  match dictGetD data "uptime" (.int 0) with
  | .str s => .ok { p with uptime := .int (parseUptimeStr s) }
  | v =>
      if pyTruthy v then do
        let n ← pyInt v
        pure { p with uptime := .int n }
      else .ok { p with uptime := .int 0 }

/-- The load section: min1 passthrough when load is a dict. -/
def parseLoad (data : JDict) (p : Parsed) : Parsed :=
  match List.lookup "load" data with
  | some (.obj l) => { p with load_avg := dictGet l "min1" }
  | _ => p

/-- The system section: os_name and os_version passthrough. -/
def parseSystem (data : JDict) (p : Parsed) : Parsed :=
  match List.lookup "system" data with
  | some (.obj sys) =>
      { p with os_name := dictGet sys "os_name",
               os_version := dictGet sys "os_version" }
  | _ => p

/-- One iteration of the battery scan.  A dict entry whose label equals
"Battery" overwrites battery_percent with float() of its value entry (when
present) and battery_status with str() of its status entry (when present).
The loop has no early exit, so later matches overwrite earlier ones. -/
def battStep (p : Parsed) (sensor : JValue) : Except PyErr Parsed :=
  match sensor with
  | .obj kv =>
      if JValue.beq (dictGet kv "label") (.str "Battery") then do
        let p ←
          if dictHas kv "value" then do
            let q ← pyFloat (dictGetD kv "value" (.int 0))
            pure { p with battery_percent := .float q }
          else pure p
        if dictHas kv "status" then
          pure { p with battery_status := .str (pyStr (dictGet kv "status")) }
        else pure p
      else .ok p
  | _ => .ok p

/-- The battery section: scan the sensors list in order when it is a list. -/
def parseBattery (data : JDict) (p : Parsed) : Except PyErr Parsed :=
  match List.lookup "sensors" data with
  | some (.list xs) => xs.foldlM battStep p
  | _ => .ok p

/-- The verbatim blob entries: fs when it is a list; sensors and alert
whatever their type (string placeholders included); network when it is a
list. -/
def parseBlobs (data : JDict) (p : Parsed) : Parsed :=
  let p :=
    match List.lookup "fs" data with
    | some (.list xs) => { p with fs_data := .list xs }
    | _ => p
  let p :=
    match List.lookup "sensors" data with
    | some v => { p with sensors_data := some v }
    | none => p
  let p :=
    match List.lookup "alert" data with
    | some v => { p with alert_data := some v }
    | none => p
  match List.lookup "network" data with
  | some (.list xs) => { p with network_data := some (.list xs) }
  | _ => p

/-- Shallow embedding of parse_glances_data (webhook_router.py lines 16-155;
the poller holds a byte-identical copy of this logic in glances_poller.py
apart from a dead filesystem scan whose result is discarded).  Sections are
applied in source order; a raised exception aborts the function. -/
def parse_glances_data (data : JDict) : Except PyErr Parsed := do
  let p := initParsed data
  let p := parseCpu data p
  let p ← parseMem data p
  let p ← parseSwap data p
  let p ← parseUptime data p
  let p := parseLoad data p
  let p := parseSystem data p
  let p ← parseBattery data p
  return parseBlobs data p

/-- A registered machine (models.Machine): the columns the core reads or
writes.  Timestamps are modelled as naturals. -/
structure Machine where
  id : Nat
  name : String
  hostname : Option String
  ip_address : String
  mac_address : Option String := none
  ha_entity_id : Option String := none
  description : Option String := none
  is_active : Bool := true
  last_seen : Option Nat := none
  os_name : Option String := none
  os_version : Option String := none
  deriving Repr, DecidableEq

/-- The validated snapshot create record (schemas.SystemSnapshotCreate).
The source field carries the pydantic default "api" whenever the caller
does not set it (schemas.py line 121).  Metric values are kept as the
payload values handed in; pydantic numeric coercion is not modelled (no
claim depends on a coerced metric value). -/
structure SystemSnapshotCreate where
  machine_id : Nat
  cpu_percent : JValue := .null
  memory_percent : JValue := .null
  memory_used : JValue := .null
  memory_total : JValue := .null
  uptime : JValue := .null
  load_avg : JValue := .null
  cpu_user : JValue := .null
  cpu_system : JValue := .null
  cpu_iowait : JValue := .null
  cpu_count : JValue := .null
  swap_percent : JValue := .null
  swap_used : JValue := .null
  swap_total : JValue := .null
  swap_free : JValue := .null
  battery_percent : JValue := .null
  battery_status : JValue := .null
  sensors_data : Option JValue := none
  alert_data : Option JValue := none
  network_data : Option JValue := none
  fs_data : JValue := .null
  source : String := "api"

/-- A stored snapshot row: the create record's fields plus the generated
primary key and the creation timestamp. -/
structure Snapshot where
  id : Nat
  created_at : Nat
  create : SystemSnapshotCreate

/-- The database state the core touches.  lastSeenWrites is a ghost counter
of successful last-seen refreshes, used only to state frame claims; it has
no influence on any computed data. -/
structure DB where
  machines : List Machine
  snapshots : List Snapshot
  nextSnapshotId : Nat := 0
  lastSeenWrites : Nat := 0

/-- crud.get_machine: first row with the given primary key. -/
def get_machine (db : DB) (machine_id : Nat) : Option Machine :=
  db.machines.find? (fun m => m.id == machine_id)

/-- crud.get_machine_by_hostname: first row whose hostname column equals the
given string. -/
def get_machine_by_hostname (db : DB) (hostname : String) : Option Machine :=
  db.machines.find? (fun m => m.hostname == some hostname)

/-- crud.get_machine_by_ip: first row whose ip_address column equals the
given string. -/
def get_machine_by_ip (db : DB) (ip_address : String) : Option Machine :=
  db.machines.find? (fun m => m.ip_address == ip_address)

/-- Apply an update to the first row carrying the given primary key, as the
ORM does after a .first() fetch. -/
def updateMachineRow (machine_id : Nat) (f : Machine → Machine) :
    List Machine → List Machine
  | [] => []
  | m :: rest =>
      if m.id == machine_id then f m :: rest
      else m :: updateMachineRow machine_id f rest

/-- crud.update_machine_last_seen: look the machine up; when found, set its
last_seen column to the current time, leave every other column and row
unchanged, and commit (ghost counter bumped); when not found, change
nothing. -/
def update_machine_last_seen (db : DB) (machine_id : Nat) (now : Nat) :
    DB × Option Machine :=
  match get_machine db machine_id with
  | none => (db, none)
  | some m =>
      ({ db with
          machines := updateMachineRow machine_id
            (fun x => { x with last_seen := some now }) db.machines,
          lastSeenWrites := db.lastSeenWrites + 1 },
       some { m with last_seen := some now })

/-- The attribute names of the ORM model class models.SystemSnapshot
(models.py lines 45-87): its declared columns plus the machine
relationship.  The model declares no source attribute. -/
def systemSnapshotAttrs : List String :=
  ["id", "machine_id", "cpu_percent", "memory_percent", "memory_used",
   "memory_total", "uptime", "load_avg", "cpu_user", "cpu_system",
   "cpu_iowait", "cpu_count", "swap_percent", "swap_used", "swap_total",
   "swap_free", "battery_percent", "battery_status", "sensors_data",
   "alert_data", "network_data", "fs_data", "created_at", "machine"]

/-- The keyword names snapshot.dict() hands to the ORM constructor: every
field of schemas.SystemSnapshotCreate (schemas.py lines 87-125).  Pydantic
dict() always emits the source key, filled with the default "api" when the
caller passes none. -/
def snapshotCreateKeys : List String :=
  ["cpu_percent", "memory_percent", "memory_used", "memory_total",
   "uptime", "load_avg", "cpu_user", "cpu_system", "cpu_iowait",
   "cpu_count", "swap_percent", "swap_used", "swap_total", "swap_free",
   "battery_percent", "battery_status", "sensors_data", "alert_data",
   "network_data", "fs_data", "source", "machine_id"]

/-- crud.create_system_snapshot (crud.py lines 107-116): build the row as
models.SystemSnapshot(**snapshot.dict()), add and commit it, then refresh
the owning machine's last_seen timestamp.  The SQLAlchemy declarative
constructor accepts only keyword names that are attributes of the model
class and raises TypeError on any other; the create record always carries
the source key while models.SystemSnapshot declares no source attribute,
so the constructor raises before the row is added and the last-seen
refresh at crud.py line 114 is never reached. -/
def create_system_snapshot (db : DB) (snapshot : SystemSnapshotCreate)
    (now : Nat) : Except PyErr (DB × Snapshot) :=
  if snapshotCreateKeys.all (fun k => systemSnapshotAttrs.contains k) then
    let row : Snapshot :=
      { id := db.nextSnapshotId, created_at := now, create := snapshot }
    let db2 : DB :=
      { db with snapshots := db.snapshots ++ [row],
                nextSnapshotId := db.nextSnapshotId + 1 }
    .ok ((update_machine_last_seen db2 snapshot.machine_id now).1, row)
  else .error .typeError

/-- Snapshots belonging to one machine, in table order. -/
def snapshotsOf (db : DB) (machine_id : Nat) : List Snapshot :=
  db.snapshots.filter (fun s => s.create.machine_id == machine_id)

/-- Order snapshots by created_at descending (the order_by desc of the
cleanup query; the order among equal timestamps is unspecified in SQL, and
the theorems below do not depend on it). -/
def sortByCreatedDesc (l : List Snapshot) : List Snapshot :=
  l.insertionSort (fun a b => b.created_at ≤ a.created_at)

/-- The ids the count-cap pass deletes for one machine: order by creation
time descending, skip the first max_records, collect the rest. -/
def dropIds (l : List Snapshot) (max_records : Nat) : List Nat :=
  ((sortByCreatedDesc l).drop max_records).map (·.id)

/-- One machine's step of crud.cleanup_snapshots_by_count: when the
machine's snapshot count exceeds the cap, order its snapshots by creation
time descending, skip the first max_records of them, and bulk-delete the
remaining ids, returning the number of deleted rows. -/
def cleanupMachineSnapshots (db : DB) (max_records : Nat) (machine_id : Nat) :
    DB × Nat :=
  let total := (snapshotsOf db machine_id).length
  if total > max_records then
    let ids := dropIds (snapshotsOf db machine_id) max_records
    let deleted := (db.snapshots.filter (fun s => ids.contains s.id)).length
    ({ db with snapshots := db.snapshots.filter (fun s => !ids.contains s.id) },
     deleted)
  else (db, 0)

/-- The per-machine loop of crud.cleanup_snapshots_by_count, trimming each
listed machine in turn on the evolving database while accumulating the
deleted-row count. -/
def cleanupFold (max_records : Nat) (ms : List Machine) (st : DB × Nat) :
    DB × Nat :=
  ms.foldl
    (fun acc m =>
      let step := cleanupMachineSnapshots acc.1 max_records m.id
      (step.1, acc.2 + step.2))
    st

/-- crud.cleanup_snapshots_by_count: enumerate all machines once, trim each
to the cap, and return the accumulated deleted-row count. -/
def cleanup_snapshots_by_count (db : DB) (max_records_per_machine : Nat) :
    DB × Nat :=
  cleanupFold max_records_per_machine db.machines (db, 0)

/-- The outcomes of the push-ingestion handler. -/
inductive HandlerResult where
  | unauthorized
  | forbiddenMissingIp
  | forbiddenUnregistered
  | machineNotFound (hostname : JValue)
  | ok (machine_id : Nat) (machine_name : String) (snapshot_id : Nat)
  | internalError
  deriving Repr

/-- Write-on-change update of one machine text column from a parsed value:
applied when the new value is truthy and the stored value is falsy or
differs, returning the new column value and whether it changed.  The parsed
values are strings in every stated scenario; the database coercion a truthy
non-string value would undergo is not modelled, so such a value leaves the
column unchanged. -/
def reconcile (stored : Option String) (v : JValue) : Option String × Bool :=
  match v with
  | .str s =>
      if s != "" && (stored.getD "" == "" || stored != some s) then (some s, true)
      else (stored, false)
  | _ => (stored, false)

/-- The address gate loop of the handler: candidates are tried in order and
the first one with a registry match selects the address-verified machine.
A non-string candidate matches no stored text address. -/
def firstIpMatch (db : DB) : List JValue → Option Machine
  | [] => none
  | v :: rest =>
      match v with
      | .str ip =>
          match get_machine_by_ip db ip with
          | some m => some m
          | none => firstIpMatch db rest
      | _ => firstIpMatch db rest

/-- The handler's hostname lookup hands the parsed hostname value to
crud.get_machine_by_hostname; the column comparison succeeds only against a
string. -/
def lookupHostnameValue (db : DB) (v : JValue) : Option Machine :=
  match v with
  | .str s => get_machine_by_hostname db s
  | _ => none

/-- Shallow embedding of the push-ingestion handler receive_glances_data
(webhook_router.py lines 158-318).  secretOk is the Boolean outcome of
verify_api_key on the presented header (auth.py is not among the sources;
per the spec it compares the secret for exact equality, so a valid secret
yields true).  The body: auth gate, candidate-address collection by
truthiness, address gate, normalization (a raised error is caught by the
surrounding except and mapped to an internal error), hostname-priority
attribution with fallback to the address-verified machine, write-on-change
field reconciliation (committed at once when anything changed), and the
snapshot write inside the same try.  The create call raises TypeError on
every input (its record always carries the source key, which the ORM model
does not declare); the surrounding except Exception maps the raise to an
internal error, the already committed field updates are not rolled back,
and the dead success tail — the ok response and the second last-seen
refresh — is kept as written.  A pydantic coercion failure while building
the create record would raise to the same except with the same observable
outcome, so it is not modelled separately. -/
def receive_glances_data (secretOk : Bool) (raw : JDict) (db : DB) (now : Nat) :
    HandlerResult × DB :=
  if !secretOk then (.unauthorized, db)
  else
    let ips_to_check :=
      [dictGet raw "external_ip", dictGet raw "local_ip"].filter pyTruthy
    if ips_to_check.isEmpty then (.forbiddenMissingIp, db)
    else
      match firstIpMatch db ips_to_check with
      | none => (.forbiddenUnregistered, db)
      | some allowed =>
          match parse_glances_data raw with
          | .error _ => (.internalError, db)
          | .ok parsed =>
              match (lookupHostnameValue db parsed.hostname).orElse
                  (fun _ => some allowed) with
              | none => (.machineNotFound parsed.hostname, db)
              | some machine =>
                  let r1 := reconcile machine.os_name parsed.os_name
                  let r2 := reconcile machine.os_version parsed.os_version
                  let r3 := reconcile machine.hostname parsed.hostname
                  let machine := { machine with
                    os_name := r1.1, os_version := r2.1, hostname := r3.1 }
                  let ms :=
                    updateMachineRow machine.id (fun _ => machine) db.machines
                  let db :=
                    if r1.2 || r2.2 || r3.2 then { db with machines := ms }
                    else db
                  let snapshot_data : SystemSnapshotCreate :=
                    { machine_id := machine.id
                      cpu_percent := parsed.cpu_percent
                      memory_percent := parsed.memory_percent
                      memory_used := parsed.memory_used
                      memory_total := parsed.memory_total
                      uptime := parsed.uptime
                      load_avg := parsed.load_avg
                      cpu_user := parsed.cpu_user
                      cpu_system := parsed.cpu_system
                      cpu_iowait := parsed.cpu_iowait
                      cpu_count := parsed.cpu_count
                      swap_percent := parsed.swap_percent
                      swap_used := parsed.swap_used
                      swap_total := parsed.swap_total
                      swap_free := parsed.swap_free
                      battery_percent := parsed.battery_percent
                      battery_status := parsed.battery_status
                      sensors_data := parsed.sensors_data
                      alert_data := parsed.alert_data
                      network_data := parsed.network_data
                      fs_data := parsed.fs_data }
                  match create_system_snapshot db snapshot_data now with
                  | .error _ => (.internalError, db)
                  | .ok step =>
                      let db :=
                        (update_machine_last_seen step.1 machine.id now).1
                      (.ok machine.id machine.name step.2.id, db)

/-- The polling service state visible to the start endpoint: the running
flag of the singleton GlancesPoller, plus a ghost count of polling loop
tasks ever spawned. -/
structure PollerState where
  running : Bool
  loopsSpawned : Nat
  deriving Repr, DecidableEq

/-- The two success responses of the start endpoint. -/
inductive StartPollingResp where
  | alreadyRunning
  | started
  deriving Repr, DecidableEq

/-- Shallow embedding of the start-polling endpoint (polling_router.py lines
62-92): when the poller is already running it answers already_running and
touches nothing; otherwise it spawns the polling loop task, whose first
action (GlancesPoller.start_polling, glances_poller.py line 28) sets the
running flag. -/
def start_polling (s : PollerState) : StartPollingResp × PollerState :=
  if s.running then (.alreadyRunning, s)
  else (.started, { running := true, loopsSpawned := s.loopsSpawned + 1 })

/-- A one-machine registry shared by several concrete runs below. -/
def demoMachine : Machine :=
  { id := 1, name := "3900x", hostname := some "JP",
    ip_address := "192.168.100.10" }

/-- A database holding just the demo machine and no snapshots. -/
def demoDB : DB := { machines := [demoMachine], snapshots := [] }

/-- A well-formed push payload whose address and hostname both resolve to
the demo machine. -/
def demoPayload : JDict :=
  [("external_ip", .str "192.168.100.10"),
   ("system", .obj [("hostname", .str "JP")]),
   ("cpu", .obj [("total", .float 25)])]

/-- An optional lookup with a sure fallback is never empty. -/
theorem orElse_some_ne_none {α : Type} (o : Option α) (a : α) :
    o.orElse (fun _ => some a) ≠ none := by
  cases o <;> simp [Option.orElse]

/-- Snapshots are unchanged by a last-seen refresh. -/
theorem update_last_seen_snapshots (db : DB) (machine_id now : Nat) :
    (update_machine_last_seen db machine_id now).1.snapshots = db.snapshots := by
  unfold update_machine_last_seen
  cases get_machine db machine_id <;> rfl

/-- C4: invoking the start-polling endpoint while the poller is already
running answers already_running, spawns no second polling loop, and leaves
the poller state unchanged. -/
theorem start_polling_running_noop (s : PollerState) (h : s.running = true) :
    start_polling s = (.alreadyRunning, s) := by
  simp [start_polling, h]

/-- Witness for C4 at a concrete running state. -/
theorem start_polling_running_noop_witness :
    (PollerState.running ⟨true, 1⟩ = true) ∧
      start_polling ⟨true, 1⟩ = (.alreadyRunning, ⟨true, 1⟩) :=
  ⟨rfl, start_polling_running_noop ⟨true, 1⟩ rfl⟩

/-- C10: the Machine-not-found rejection branch of the push handler is
unreachable: once the address gate has passed, attribution falls back to
the address-verified machine, so the handler never answers machineNotFound
on any input. -/
theorem machine_not_found_unreachable (secretOk : Bool) (raw : JDict)
    (db : DB) (now : Nat) (h : JValue) :
    (receive_glances_data secretOk raw db now).1 ≠ .machineNotFound h := by
  simp only [receive_glances_data]
  repeat' split
  all_goals intro hc
  all_goals try cases hc
  all_goals rename_i heq
  all_goals exact orElse_some_ne_none _ _ heq

/-- C2: no snapshot is ever persisted through the push path, with source
"push" or any other tag.  Every ORM snapshot insert raises TypeError on
the source keyword, so even the demo request — valid secret, registered
address, clean payload — answers an internal error and stores nothing;
and the create record the handler builds carries the schema default "api",
not "push", in the first place. -/
theorem push_snapshot_never_persisted :
    (∀ (db : DB) (sd : SystemSnapshotCreate) (now : Nat),
        create_system_snapshot db sd now = .error .typeError)
  ∧ (receive_glances_data true demoPayload demoDB 100).1 = .internalError
  ∧ (receive_glances_data true demoPayload demoDB 100).2.snapshots = []
  ∧ ({ machine_id := 1 } : SystemSnapshotCreate).source = "api"
  ∧ "api" ≠ "push" :=
  ⟨fun _ _ _ => rfl, rfl, rfl, rfl, by decide⟩

/-- C5: with a valid secret, a push request whose candidate addresses are
all absent (the truthiness filter leaves nothing) or all unregistered (the
gate loop finds no match) is rejected as forbidden with the database
untouched — the payload hostname is never consulted before the address
gate, so a registered hostname does not help. -/
theorem push_address_gate (raw : JDict) (db : DB) (now : Nat)
    (hno : firstIpMatch db
        ([dictGet raw "external_ip", dictGet raw "local_ip"].filter pyTruthy)
      = none) :
    ((receive_glances_data true raw db now).1 = .forbiddenMissingIp
      ∨ (receive_glances_data true raw db now).1 = .forbiddenUnregistered)
  ∧ (receive_glances_data true raw db now).2 = db := by
  simp only [receive_glances_data, Bool.not_true, Bool.false_eq_true,
    if_false, hno]
  split
  · exact ⟨Or.inl rfl, rfl⟩
  · exact ⟨Or.inr rfl, rfl⟩

/-- An unregistered-address payload whose hostname nevertheless matches the
registered demo machine. -/
def gatePayload : JDict :=
  [("external_ip", .str "10.9.9.9"),
   ("system", .obj [("hostname", .str "JP")])]

/-- Witness for C5: the gate payload carries a candidate address, its
hostname resolves to the registered demo machine, yet the request is
rejected as forbidden and writes nothing. -/
theorem push_address_gate_witness :
    firstIpMatch demoDB
        ([dictGet gatePayload "external_ip",
          dictGet gatePayload "local_ip"].filter pyTruthy) = none
  ∧ get_machine_by_hostname demoDB "JP" = some demoMachine
  ∧ ((receive_glances_data true gatePayload demoDB 5).1 = .forbiddenMissingIp
      ∨ (receive_glances_data true gatePayload demoDB 5).1
          = .forbiddenUnregistered)
  ∧ (receive_glances_data true gatePayload demoDB 5).2 = demoDB :=
  ⟨rfl, rfl, (push_address_gate gatePayload demoDB 5 rfl).1,
    (push_address_gate gatePayload demoDB 5 rfl).2⟩

/-- A payload holding only an uptime entry normalizes to a record whose
uptime is the regex extraction of that string. -/
theorem parse_uptime_only (s : String) :
    (parse_glances_data [("uptime", .str s)]).map (·.uptime)
      = .ok (.int (parseUptimeStr s)) := rfl

/-- C8: uptime parsing satisfies the four stated cases: the day-and-clock
string gives 2655457 seconds, the integer 5 passes through, a missing key
gives 0, and a string matching neither the day pattern nor the H:MM:SS
pattern gives 0 without raising. -/
theorem uptime_parsing (s : String)
    (hd : searchDays s.toList = none) (ht : searchTime s.toList = none) :
    (parse_glances_data [("uptime", .str "30 days, 17:37:37")]).map (·.uptime)
        = .ok (.int 2655457)
  ∧ (parse_glances_data [("uptime", .int 5)]).map (·.uptime) = .ok (.int 5)
  ∧ (parse_glances_data []).map (·.uptime) = .ok (.int 0)
  ∧ (parse_glances_data [("uptime", .str s)]).map (·.uptime)
        = .ok (.int 0) := by
  refine ⟨rfl, rfl, rfl, ?_⟩
  rw [parse_uptime_only]
  simp only [String.toList] at hd ht
  simp [parseUptimeStr, hd, ht]

/-- Witness for C8 at the pattern-free string. -/
theorem uptime_parsing_witness :
    (searchDays "n/a".toList = none ∧ searchTime "n/a".toList = none)
  ∧ (parse_glances_data [("uptime", .str "n/a")]).map (·.uptime)
      = .ok (.int 0) :=
  ⟨⟨rfl, rfl⟩, (uptime_parsing "n/a" rfl rfl).2.2.2⟩

/-- Rows whose primary key differs from the updated one survive a row
update unchanged. -/
theorem mem_updateMachineRow_of_ne (ms : List Machine) (mid : Nat)
    (f : Machine → Machine) (m : Machine) (hm : m ∈ ms) (hne : m.id ≠ mid) :
    m ∈ updateMachineRow mid f ms := by
  induction ms with
  | nil => cases hm
  | cons a t ih =>
      unfold updateMachineRow
      rcases List.mem_cons.mp hm with rfl | hmt
      · split
        · rename_i hb
          rw [beq_iff_eq] at hb
          exact absurd hb hne
        · exact List.mem_cons_self _ _
      · split
        · exact List.mem_cons_of_mem _ hmt
        · exact List.mem_cons_of_mem _ (ih hmt)

/-- Rows whose primary key differs from the refreshed one survive a
last-seen refresh unchanged. -/
theorem machines_frame_update_last_seen (db : DB) (mid now : Nat)
    (m : Machine) (hm : m ∈ db.machines) (hne : m.id ≠ mid) :
    m ∈ (update_machine_last_seen db mid now).1.machines := by
  unfold update_machine_last_seen
  cases get_machine db mid
  · exact hm
  · exact mem_updateMachineRow_of_ne _ _ _ _ hm hne

/-- A registry machine reachable by address in the two-machine fixture. -/
def machineA : Machine :=
  { id := 1, name := "alpha", hostname := some "ahost",
    ip_address := "10.0.0.1" }

/-- A registry machine reachable by hostname in the two-machine fixture. -/
def machineB : Machine :=
  { id := 2, name := "beta", hostname := some "bhost",
    ip_address := "10.0.0.2" }

/-- A two-machine registry with no snapshots. -/
def twoDB : DB := { machines := [machineA, machineB], snapshots := [] }

/-- A payload whose address matches machine A while its hostname matches
machine B, carrying an os_name so the write-on-change reconciliation has
something to write. -/
def priorityPayload : JDict :=
  [("external_ip", .str "10.0.0.1"),
   ("system", .obj [("hostname", .str "bhost"),
                    ("os_name", .str "Linux")])]

/-- C6: the priority payload is address-verified as machine A while its
hostname resolves to machine B, and the write-on-change field updates are
indeed attributed to B — B's row alone absorbs the parsed os_name, A's row
survives untouched — but the stored snapshot the claim attributes never
exists: the snapshot insert raises TypeError on the source keyword, the
request answers an internal error, and no snapshot is appended for B or
any other machine (the already committed field update on B's row is not
rolled back). -/
theorem hostname_priority_no_snapshot :
    firstIpMatch twoDB
        ([dictGet priorityPayload "external_ip",
          dictGet priorityPayload "local_ip"].filter pyTruthy) = some machineA
  ∧ lookupHostnameValue twoDB (JValue.str "bhost") = some machineB
  ∧ (receive_glances_data true priorityPayload twoDB 7).1 = .internalError
  ∧ (receive_glances_data true priorityPayload twoDB 7).2.snapshots = []
  ∧ (receive_glances_data true priorityPayload twoDB 7).2.machines
      = [machineA, { machineB with os_name := some "Linux" }] :=
  ⟨rfl, rfl, rfl, rfl, rfl⟩

/-- The address-gate loop only ever returns a registry row. -/
theorem firstIpMatch_mem (db : DB) (l : List JValue) (A : Machine)
    (h : firstIpMatch db l = some A) : A ∈ db.machines := by
  induction l with
  | nil => cases h
  | cons v rest ih =>
      cases v <;> simp only [firstIpMatch] at h <;> try exact ih h
      rename_i s
      rcases hg : get_machine_by_ip db s with _ | m
      · simp only [hg] at h
        exact ih h
      · simp only [hg, Option.some.injEq] at h
        subst h
        unfold get_machine_by_ip at hg
        exact List.mem_of_find?_eq_some hg

/-- The hostname lookup only ever returns a registry row. -/
theorem lookupHostnameValue_mem (db : DB) (v : JValue) (B : Machine)
    (h : lookupHostnameValue db v = some B) : B ∈ db.machines := by
  unfold lookupHostnameValue at h
  split at h
  · unfold get_machine_by_hostname at h
    exact List.mem_of_find?_eq_some h
  · cases h

/-- A row update that preserves the sought id on matching rows preserves
the existence of a row with that id. -/
theorem exists_id_updateMachineRow (ms : List Machine) (mid : Nat)
    (f : Machine → Machine) (hfi : ∀ y, y.id = mid → (f y).id = mid)
    (hx : ∃ x ∈ ms, x.id = mid) :
    ∃ x ∈ updateMachineRow mid f ms, x.id = mid := by
  induction ms with
  | nil => simp at hx
  | cons a t ih =>
      unfold updateMachineRow
      split
      · rename_i hb
        exact ⟨f a, List.mem_cons_self _ _, hfi a (beq_iff_eq.mp hb)⟩
      · rename_i hb
        have ht : ∃ x ∈ t, x.id = mid := by
          rcases hx with ⟨x, hxm, hxi⟩
          rcases List.mem_cons.mp hxm with rfl | h2
          · exact absurd (beq_iff_eq.mpr hxi) hb
          · exact ⟨x, h2, hxi⟩
        rcases ih ht with ⟨x, hxm, hxi⟩
        exact ⟨x, List.mem_cons_of_mem _ hxm, hxi⟩

/-- get_machine succeeds when a row with the sought id exists. -/
theorem get_machine_isSome (db : DB) (i : Nat)
    (hx : ∃ x ∈ db.machines, x.id = i) : (get_machine db i).isSome := by
  unfold get_machine
  rw [List.find?_isSome]
  rcases hx with ⟨x, hm, hi⟩
  exact ⟨x, hm, by simp [hi]⟩

/-- A found last-seen refresh bumps the ghost counter by one and keeps a
row with the refreshed id in place. -/
theorem update_last_seen_spec (db : DB) (mid now : Nat)
    (hx : ∃ x ∈ db.machines, x.id = mid) :
    (update_machine_last_seen db mid now).1.lastSeenWrites
        = db.lastSeenWrites + 1
  ∧ ∃ x ∈ (update_machine_last_seen db mid now).1.machines, x.id = mid := by
  have hs := get_machine_isSome db mid hx
  rcases hg : get_machine db mid with _ | m
  · rw [hg] at hs; cases hs
  · unfold update_machine_last_seen
    rw [hg]
    exact ⟨rfl, exists_id_updateMachineRow _ _ _ (fun y hy => hy) hx⟩

/-- A found last-seen refresh rewrites exactly the matching row's
last_seen column. -/
theorem update_last_seen_machines_eq (db : DB) (mid now : Nat) (m : Machine)
    (hm : get_machine db mid = some m) :
    (update_machine_last_seen db mid now).1.machines
      = updateMachineRow mid (fun x => { x with last_seen := some now })
          db.machines := by
  simp only [update_machine_last_seen, hm]

/-- Looking an id up just after a matching row is prepended finds that
row. -/
theorem find?_id_cons_pos (a : Machine) (l : List Machine) (mid : Nat)
    (h : (a.id == mid) = true) :
    List.find? (fun x => x.id == mid) (a :: l) = some a := by
  simp [List.find?, h]

/-- Looking an id up skips a prepended row with a different id. -/
theorem find?_id_cons_neg (a : Machine) (l : List Machine) (mid : Nat)
    (h : (a.id == mid) = false) :
    List.find? (fun x => x.id == mid) (a :: l)
      = List.find? (fun x => x.id == mid) l := by
  simp [List.find?, h]

/-- Updating the first row with a given id commutes with looking that id
up, when the update preserves ids. -/
theorem find?_updateMachineRow (ms : List Machine) (mid : Nat)
    (f : Machine → Machine) (hf : ∀ y, (f y).id = y.id) :
    (updateMachineRow mid f ms).find? (fun x => x.id == mid)
      = (ms.find? (fun x => x.id == mid)).map f := by
  induction ms with
  | nil => rfl
  | cons a t ih =>
      unfold updateMachineRow
      by_cases hb : (a.id == mid) = true
      · have hfb : ((f a).id == mid) = true := by rw [hf a]; exact hb
        rw [if_pos hb, find?_id_cons_pos _ _ _ hfb, find?_id_cons_pos _ _ _ hb]
        rfl
      · have hbf : (a.id == mid) = false := by simpa using hb
        rw [if_neg hb, find?_id_cons_neg _ _ _ hbf, find?_id_cons_neg _ _ _ hbf]
        exact ih

/-- After a found last-seen refresh, looking the machine up returns the
same row with only its last_seen column stamped. -/
theorem get_machine_after_update (db : DB) (mid now : Nat) (m : Machine)
    (hm : get_machine db mid = some m) :
    get_machine (update_machine_last_seen db mid now).1 mid
      = some { m with last_seen := some now } := by
  unfold update_machine_last_seen
  rw [hm]
  show get_machine
      { db with
          machines := updateMachineRow mid
            (fun x => { x with last_seen := some now }) db.machines,
          lastSeenWrites := db.lastSeenWrites + 1 } mid = _
  unfold get_machine
  rw [find?_updateMachineRow db.machines mid
    (fun x => { x with last_seen := some now }) (fun y => rfl)]
  unfold get_machine at hm
  rw [hm]
  rfl

/-- C9: snapshot creation through the shared store never succeeds — every
call raises TypeError on the source keyword before any row is added — so
no creation ever refreshes the owning machine's last_seen, and no push
request performs the two refreshes of the intended success tail: the demo
push request leaves the ghost last-seen write counter untouched, leaves
the demo machine's last_seen column empty, and answers an internal
error. -/
theorem create_snapshot_never_refreshes_last_seen :
    (∀ (db : DB) (sd : SystemSnapshotCreate) (now : Nat),
        (create_system_snapshot db sd now).isOk = false)
  ∧ (receive_glances_data true demoPayload demoDB 100).2.lastSeenWrites
      = demoDB.lastSeenWrites
  ∧ get_machine (receive_glances_data true demoPayload demoDB 100).2 1
      = some demoMachine
  ∧ demoMachine.last_seen = none
  ∧ (receive_glances_data true demoPayload demoDB 100).1 = .internalError :=
  ⟨fun _ _ _ => rfl, rfl, rfl, rfl, rfl⟩

/-- A bind in the Except monad succeeds exactly when its first stage
succeeds and the continuation succeeds on its value. -/
theorem except_bind_ok {ε α β : Type} (x : Except ε α) (f : α → Except ε β)
    (b : β) : (x >>= f) = .ok b ↔ ∃ a, x = .ok a ∧ f a = .ok b := by
  cases x <;> simp [Bind.bind, Except.bind]

/-- A payload holding only a sensors list normalizes to the battery scan
over that list (starting from the unknown-hostname, zero-uptime record),
followed by the verbatim sensors blob capture. -/
theorem parse_sensors_only (xs : List JValue) :
    parse_glances_data [("sensors", .list xs)]
      = (xs.foldlM battStep { hostname := .str "unknown", uptime := .int 0 })
          >>= (fun p => .ok { p with sensors_data := some (.list xs) }) := rfl

/-- A scan over battery-free sensors leaves the record untouched. -/
theorem battFold_no_match (ys : List JValue) (p0 : Parsed)
    (h : ∀ kv2 : JDict, JValue.obj kv2 ∈ ys →
        JValue.beq (dictGet kv2 "label") (.str "Battery") = false) :
    ys.foldlM battStep p0 = .ok p0 := by
  induction ys generalizing p0 with
  | nil => rfl
  | cons y t ih =>
      have hstep : battStep p0 y = .ok p0 := by
        cases y <;> try rfl
        rename_i kv2
        simp [battStep, h kv2 (List.mem_cons_self _ _)]
      rw [List.foldlM_cons, hstep]
      show t.foldlM battStep p0 = .ok p0
      exact ih _ (fun kv2 hm => h kv2 (List.mem_cons_of_mem _ hm))

/-- The two-battery payload of the C3 counterexample. -/
def battPayload : JDict :=
  [("sensors", .list
      [.obj [("label", .str "Battery"), ("value", .int 10),
             ("status", .str "A")],
       .obj [("label", .str "Battery"), ("value", .int 20),
             ("status", .str "B")]])]

/-- C3 counterexample: with two Battery-labeled sensor entries the
normalizer reports the second entry's value and status — the scan has no
early exit, so the last match wins, not the first. -/
theorem battery_first_match_false :
    (parse_glances_data battPayload).map
        (fun p => (p.battery_percent, p.battery_status))
      = .ok (.float 20, .str "B")
  ∧ JValue.float 20 ≠ JValue.float 10
  ∧ JValue.str "B" ≠ JValue.str "A" :=
  ⟨rfl,
   fun h => by injection h with h2; exact absurd h2 (by norm_num),
   fun h => by injection h with h2; exact absurd h2 (by decide)⟩

/-- C3 amended: the battery scan is last-match-wins, fieldwise.  When the
final sensors entry is a Battery-labeled dict carrying both a value (whose
float coercion succeeds) and a status, the normalized record reports that
entry's value and status regardless of the earlier entries; and when no
entry is a Battery-labeled dict, both battery fields remain unset (None). -/
theorem battery_last_match_wins (l : List JValue) (kv : JDict) (q : ℚ)
    (p : Parsed)
    (hlabel : JValue.beq (dictGet kv "label") (.str "Battery") = true)
    (hvalue : dictHas kv "value" = true)
    (hfloat : pyFloat (dictGetD kv "value" (.int 0)) = .ok q)
    (hstatus : dictHas kv "status" = true)
    (hparse : parse_glances_data [("sensors", .list (l ++ [.obj kv]))]
        = .ok p) :
    (p.battery_percent = .float q
      ∧ p.battery_status = .str (pyStr (dictGet kv "status")))
  ∧ ∀ (ys : List JValue) (p2 : Parsed),
      (∀ kv2 : JDict, JValue.obj kv2 ∈ ys →
          JValue.beq (dictGet kv2 "label") (.str "Battery") = false) →
      parse_glances_data [("sensors", .list ys)] = .ok p2 →
      p2.battery_percent = .null ∧ p2.battery_status = .null := by
  constructor
  · rw [parse_sensors_only, List.foldlM_append] at hparse
    rcases (except_bind_ok _ _ _).mp hparse with ⟨pfin, hfin, hout⟩
    rcases (except_bind_ok _ _ _).mp hfin with ⟨pmid, hmid, hstep⟩
    rw [List.foldlM_cons] at hstep
    rcases (except_bind_ok _ _ _).mp hstep with ⟨pbs, hbs, hpure⟩
    have hpure2 : pbs = pfin := by
      simpa [List.foldlM_nil, pure, Except.pure] using hpure
    subst hpure2
    simp only [battStep, hlabel, hvalue, hstatus, hfloat, if_true,
      Bind.bind, Except.bind, pure, Except.pure, Except.ok.injEq] at hbs
    simp only [Except.ok.injEq] at hout
    rw [← hout, ← hbs]
    exact ⟨rfl, rfl⟩
  · intro ys p2 hno hp
    rw [parse_sensors_only, battFold_no_match ys _ hno] at hp
    simp only [Bind.bind, Except.bind, Except.ok.injEq] at hp
    rw [← hp]
    exact ⟨rfl, rfl⟩

/-- The first battery entry of the counterexample payload. -/
def battEntry1 : JDict :=
  [("label", .str "Battery"), ("value", .int 10), ("status", .str "A")]

/-- The second battery entry of the counterexample payload. -/
def battEntry2 : JDict :=
  [("label", .str "Battery"), ("value", .int 20), ("status", .str "B")]

/-- The record the two-battery payload normalizes to. -/
def battParsed : Parsed :=
  { hostname := .str "unknown", uptime := .int 0,
    battery_percent := .float 20, battery_status := .str "B",
    sensors_data := some (.list [.obj battEntry1, .obj battEntry2]) }

/-- Witness for the amended C3 at the two-battery payload. -/
theorem battery_last_match_wins_witness :
    (JValue.beq (dictGet battEntry2 "label") (.str "Battery") = true
      ∧ dictHas battEntry2 "value" = true
      ∧ pyFloat (dictGetD battEntry2 "value" (.int 0)) = .ok 20
      ∧ dictHas battEntry2 "status" = true
      ∧ parse_glances_data
          [("sensors", .list ([.obj battEntry1] ++ [.obj battEntry2]))]
        = .ok battParsed)
  ∧ (battParsed.battery_percent = .float 20
      ∧ battParsed.battery_status = .str (pyStr (dictGet battEntry2 "status"))) :=
  ⟨⟨rfl, rfl, rfl, rfl, rfl⟩,
    (battery_last_match_wins [.obj battEntry1] battEntry2 20 battParsed
      rfl rfl rfl rfl rfl).1⟩

/-- sortByCreatedDesc permutes its input. -/
theorem sortByCreatedDesc_perm (l : List Snapshot) :
    List.Perm (sortByCreatedDesc l) l :=
  List.perm_insertionSort _ l

/-- The rows surviving one machine's bulk delete. -/
def keepSnapshots (db : DB) (N mid : Nat) : List Snapshot :=
  db.snapshots.filter (fun s => !(dropIds (snapshotsOf db mid) N).contains s.id)

/-- The row count one machine's bulk delete removes. -/
def delCount (db : DB) (N mid : Nat) : Nat :=
  (db.snapshots.filter
    (fun s => (dropIds (snapshotsOf db mid) N).contains s.id)).length

/-- The contains test on a list of ids is membership. -/
theorem contains_iff_mem_nat (xs : List Nat) (a : Nat) :
    xs.contains a = true ↔ a ∈ xs := List.elem_iff

/-- Snapshots of one machine are stored snapshots. -/
theorem snapshotsOf_subset (db : DB) (mid : Nat) :
    ∀ x ∈ snapshotsOf db mid, x ∈ db.snapshots :=
  fun _ hx => List.mem_of_mem_filter hx

/-- A snapshot of machine mid carries machine id mid. -/
theorem snapshotsOf_machine_id (db : DB) (mid : Nat) :
    ∀ x ∈ snapshotsOf db mid, x.create.machine_id = mid :=
  fun _ hx => beq_iff_eq.mp (List.mem_filter.mp hx).2

/-- Under globally unique ids, a stored snapshot's id lies among the ids of
a selection of stored snapshots exactly when the snapshot itself is a
member of the selection. -/
theorem id_mem_iff (db : DB) (hs : (db.snapshots.map (·.id)).Nodup)
    (sel : List Snapshot) (hsel : ∀ x ∈ sel, x ∈ db.snapshots)
    (s : Snapshot) (hmem : s ∈ db.snapshots) :
    s.id ∈ sel.map (·.id) ↔ s ∈ sel := by
  constructor
  · intro hid
    rcases List.mem_map.mp hid with ⟨x, hx, hxe⟩
    have hsx : s = x :=
      List.inj_on_of_nodup_map hs hmem (hsel x hx) hxe.symm
    rw [hsx]
    exact hx
  · exact List.mem_map_of_mem _

/-- Elements skipped past the cap are stored snapshots of the machine. -/
theorem drop_sorted_mem (db : DB) (mid N : Nat) :
    ∀ x ∈ (sortByCreatedDesc (snapshotsOf db mid)).drop N,
      x ∈ snapshotsOf db mid :=
  fun _ hx => (sortByCreatedDesc_perm _).mem_iff.mp (List.mem_of_mem_drop hx)

/-- Elements kept under the cap are stored snapshots of the machine. -/
theorem take_sorted_mem (db : DB) (mid N : Nat) :
    ∀ x ∈ (sortByCreatedDesc (snapshotsOf db mid)).take N,
      x ∈ snapshotsOf db mid :=
  fun _ hx => (sortByCreatedDesc_perm _).mem_iff.mp (List.mem_of_mem_take hx)

/-- Under globally unique ids the sorted per-machine list has no duplicate
rows. -/
theorem sorted_nodup (db : DB) (mid : Nat)
    (hs : (db.snapshots.map (·.id)).Nodup) :
    (sortByCreatedDesc (snapshotsOf db mid)).Nodup := by
  have h1 : ((snapshotsOf db mid).map (·.id)).Nodup :=
    List.Nodup.sublist (List.Sublist.map _ (List.filter_sublist _)) hs
  exact (sortByCreatedDesc_perm _).nodup_iff.mpr (List.Nodup.of_map _ h1)

/-- A row kept under the cap is not also in the dropped suffix. -/
theorem take_drop_disjoint (db : DB) (mid N : Nat)
    (hs : (db.snapshots.map (·.id)).Nodup) :
    ∀ x ∈ (sortByCreatedDesc (snapshotsOf db mid)).take N,
      x ∉ (sortByCreatedDesc (snapshotsOf db mid)).drop N := by
  have hnd := sorted_nodup db mid hs
  rw [← List.take_append_drop N (sortByCreatedDesc (snapshotsOf db mid))] at hnd
  have hd := List.nodup_append.mp hnd
  exact fun x hx hx2 => hd.2.2 hx hx2

/-- The keep predicate of the bulk delete holds, on stored snapshots,
exactly off the dropped suffix. -/
theorem keep_iff (db : DB) (mid N : Nat)
    (hs : (db.snapshots.map (·.id)).Nodup) (s : Snapshot)
    (hmem : s ∈ db.snapshots) :
    (!(dropIds (snapshotsOf db mid) N).contains s.id) = true
      ↔ s ∉ (sortByCreatedDesc (snapshotsOf db mid)).drop N := by
  have hsel : ∀ x ∈ (sortByCreatedDesc (snapshotsOf db mid)).drop N,
      x ∈ db.snapshots :=
    fun x hx => snapshotsOf_subset db mid x (drop_sorted_mem db mid N x hx)
  constructor
  · intro h hdrop
    have hid : s.id ∈ dropIds (snapshotsOf db mid) N :=
      List.mem_map_of_mem _ hdrop
    rw [← contains_iff_mem_nat] at hid
    rw [hid] at h
    cases h
  · intro hnot
    by_cases hc : (dropIds (snapshotsOf db mid) N).contains s.id = true
    · have hm2 := (contains_iff_mem_nat _ _).mp hc
      have := (id_mem_iff db hs _ hsel s hmem).mp hm2
      exact absurd this hnot
    · rw [Bool.not_eq_true] at hc
      rw [hc]
      rfl

/-- Filtering stored snapshots commutes with selecting one machine's. -/
theorem snapshotsOf_filter (db : DB) (pr : Snapshot → Bool) (k : Nat) :
    snapshotsOf { db with snapshots := db.snapshots.filter pr } k
      = (snapshotsOf db k).filter pr := by
  unfold snapshotsOf
  rw [List.filter_filter, List.filter_filter]
  exact List.filter_congr (fun a _ => Bool.and_comm _ _)

/-- Specification of one machine's count-cap step: machine rows and
metadata untouched, unique ids preserved, other machines' snapshots
untouched, and the machine's surviving snapshots exactly the cap-many most
recent ones. -/
theorem cleanupMachine_spec (db : DB) (N mid : Nat)
    (hs : (db.snapshots.map (·.id)).Nodup) :
    ((cleanupMachineSnapshots db N mid).1.machines = db.machines
      ∧ (cleanupMachineSnapshots db N mid).1.nextSnapshotId = db.nextSnapshotId
      ∧ (cleanupMachineSnapshots db N mid).1.lastSeenWrites
          = db.lastSeenWrites)
  ∧ (((cleanupMachineSnapshots db N mid).1.snapshots.map (·.id)).Nodup)
  ∧ (∀ k, k ≠ mid →
      snapshotsOf (cleanupMachineSnapshots db N mid).1 k = snapshotsOf db k)
  ∧ (∀ s, s ∈ snapshotsOf (cleanupMachineSnapshots db N mid).1 mid ↔
      s ∈ (sortByCreatedDesc (snapshotsOf db mid)).take N)
  ∧ (snapshotsOf (cleanupMachineSnapshots db N mid).1 mid).length
      = min (snapshotsOf db mid).length N := by
  by_cases hgt : (snapshotsOf db mid).length > N
  case neg =>
    have hstep : cleanupMachineSnapshots db N mid = (db, 0) := by
      unfold cleanupMachineSnapshots
      rw [if_neg hgt]
    rw [hstep]
    refine ⟨⟨rfl, rfl, rfl⟩, hs, fun k _ => rfl, ?_, ?_⟩
    · intro s
      have hlen : (sortByCreatedDesc (snapshotsOf db mid)).length ≤ N := by
        rw [(sortByCreatedDesc_perm _).length_eq]
        omega
      rw [List.take_of_length_le hlen]
      exact ((sortByCreatedDesc_perm _).mem_iff).symm
    · rw [Nat.min_eq_left (by omega)]
  case pos =>
    have hstep : cleanupMachineSnapshots db N mid
        = ({ db with snapshots := keepSnapshots db N mid }, delCount db N mid) := by
      unfold cleanupMachineSnapshots keepSnapshots delCount
      rw [if_pos hgt]
    rw [hstep]
    unfold keepSnapshots
    refine ⟨⟨rfl, rfl, rfl⟩, ?_, ?_, ?_, ?_⟩
    · exact List.Nodup.sublist (List.Sublist.map _ (List.filter_sublist _)) hs
    · intro k hk
      rw [snapshotsOf_filter]
      apply List.filter_eq_self.mpr
      intro s hsm
      have hmem := snapshotsOf_subset db k s hsm
      have hmid : s.create.machine_id = k := snapshotsOf_machine_id db k s hsm
      rw [keep_iff db mid N hs s hmem]
      intro hdrop
      have hmid2 := snapshotsOf_machine_id db mid s
        (drop_sorted_mem db mid N s hdrop)
      exact hk (hmid.symm.trans hmid2)
    · intro s
      rw [snapshotsOf_filter, List.mem_filter]
      constructor
      · rintro ⟨hsl, hkeep⟩
        have hmem := snapshotsOf_subset db mid s hsl
        have hnd := (keep_iff db mid N hs s hmem).mp hkeep
        have hsorted : s ∈ sortByCreatedDesc (snapshotsOf db mid) :=
          (sortByCreatedDesc_perm _).mem_iff.mpr hsl
        rw [← List.take_append_drop N (sortByCreatedDesc (snapshotsOf db mid)),
          List.mem_append] at hsorted
        rcases hsorted with h | h
        · exact h
        · exact absurd h hnd
      · intro htake
        have hsl : s ∈ snapshotsOf db mid := take_sorted_mem db mid N s htake
        refine ⟨hsl, ?_⟩
        rw [keep_iff db mid N hs s (snapshotsOf_subset db mid s hsl)]
        exact take_drop_disjoint db mid N hs s htake
    · rw [snapshotsOf_filter]
      have hperm := ((sortByCreatedDesc_perm (snapshotsOf db mid)).symm.filter
        (fun s => !(dropIds (snapshotsOf db mid) N).contains s.id))
      rw [hperm.length_eq]
      conv_lhs => rw [← List.take_append_drop N
        (sortByCreatedDesc (snapshotsOf db mid))]
      rw [List.filter_append, List.length_append]
      have htake : ((sortByCreatedDesc (snapshotsOf db mid)).take N).filter
          (fun s => !(dropIds (snapshotsOf db mid) N).contains s.id)
          = (sortByCreatedDesc (snapshotsOf db mid)).take N := by
        apply List.filter_eq_self.mpr
        intro a ha
        rw [keep_iff db mid N hs a
          (snapshotsOf_subset db mid a (take_sorted_mem db mid N a ha))]
        exact take_drop_disjoint db mid N hs a ha
      have hdropn : ((sortByCreatedDesc (snapshotsOf db mid)).drop N).filter
          (fun s => !(dropIds (snapshotsOf db mid) N).contains s.id) = [] := by
        apply List.filter_eq_nil_iff.mpr
        intro a ha hkeep
        exact (keep_iff db mid N hs a
          (snapshotsOf_subset db mid a (drop_sorted_mem db mid N a ha))).mp
          hkeep ha
      rw [htake, hdropn]
      simp only [List.length_nil, Nat.add_zero, List.length_take]
      rw [(sortByCreatedDesc_perm (snapshotsOf db mid)).length_eq,
        Nat.min_comm]

/-- Unfolding one step of the cleanup loop. -/
theorem cleanupFold_cons (N : Nat) (m : Machine) (t : List Machine)
    (st : DB × Nat) :
    cleanupFold N (m :: t) st
      = cleanupFold N t ((cleanupMachineSnapshots st.1 N m.id).1,
          st.2 + (cleanupMachineSnapshots st.1 N m.id).2) := rfl

/-- Specification of the cleanup loop over a machine list with no
duplicate ids. -/
theorem cleanupFold_spec (N : Nat) (ms : List Machine) (db : DB) (acc : Nat)
    (hs : (db.snapshots.map (·.id)).Nodup)
    (hm : (ms.map (·.id)).Nodup) :
    ((cleanupFold N ms (db, acc)).1.machines = db.machines
      ∧ (cleanupFold N ms (db, acc)).1.nextSnapshotId = db.nextSnapshotId
      ∧ (cleanupFold N ms (db, acc)).1.lastSeenWrites = db.lastSeenWrites)
  ∧ (((cleanupFold N ms (db, acc)).1.snapshots.map (·.id)).Nodup)
  ∧ (∀ k, k ∉ ms.map (·.id) →
      snapshotsOf (cleanupFold N ms (db, acc)).1 k = snapshotsOf db k)
  ∧ (∀ m ∈ ms,
      (∀ s, s ∈ snapshotsOf (cleanupFold N ms (db, acc)).1 m.id ↔
          s ∈ (sortByCreatedDesc (snapshotsOf db m.id)).take N)
      ∧ (snapshotsOf (cleanupFold N ms (db, acc)).1 m.id).length
          = min (snapshotsOf db m.id).length N) := by
  induction ms generalizing db acc with
  | nil =>
      exact ⟨⟨rfl, rfl, rfl⟩, hs, fun k _ => rfl,
        fun m hmem => absurd hmem (List.not_mem_nil m)⟩
  | cons m t ih =>
      rw [cleanupFold_cons]
      have hspec := cleanupMachine_spec db N m.id hs
      rw [List.map_cons, List.nodup_cons] at hm
      have ih2 := ih (cleanupMachineSnapshots db N m.id).1
        (acc + (cleanupMachineSnapshots db N m.id).2) hspec.2.1 hm.2
      refine ⟨⟨?_, ?_, ?_⟩, ih2.2.1, ?_, ?_⟩
      · exact ih2.1.1.trans hspec.1.1
      · exact ih2.1.2.1.trans hspec.1.2.1
      · exact ih2.1.2.2.trans hspec.1.2.2
      · intro k hk
        rw [List.map_cons, List.mem_cons] at hk
        push_neg at hk
        exact (ih2.2.2.1 k hk.2).trans (hspec.2.2.1 k hk.1)
      · intro m2 hm2
        rw [List.mem_cons] at hm2
        rcases hm2 with rfl | hm2t
        · have hframe := ih2.2.2.1 m2.id hm.1
          rw [hframe]
          exact ⟨hspec.2.2.2.1, hspec.2.2.2.2⟩
        · have hne : m2.id ≠ m.id := by
            intro he
            exact hm.1 (he ▸ List.mem_map_of_mem (·.id) hm2t)
          have hstepf := hspec.2.2.1 m2.id hne
          have hper := ih2.2.2.2 m2 hm2t
          rw [hstepf] at hper
          exact hper

/-- A machine already within the cap is untouched by its step. -/
theorem cleanupMachine_noop (db : DB) (N mid : Nat)
    (h : (snapshotsOf db mid).length ≤ N) :
    cleanupMachineSnapshots db N mid = (db, 0) := by
  unfold cleanupMachineSnapshots
  rw [if_neg (by omega)]

/-- A cleanup loop over machines all within the cap changes nothing and
deletes nothing. -/
theorem cleanupFold_noop (N : Nat) (ms : List Machine) (db : DB) (acc : Nat)
    (h : ∀ m ∈ ms, (snapshotsOf db m.id).length ≤ N) :
    cleanupFold N ms (db, acc) = (db, acc) := by
  induction ms with
  | nil => rfl
  | cons m t ih =>
      rw [cleanupFold_cons]
      rw [cleanupMachine_noop db N m.id (h m (List.mem_cons_self _ _))]
      rw [Nat.add_zero]
      exact ih (fun m2 hm2 => h m2 (List.mem_cons_of_mem _ hm2))

/-- C7: one count-cap retention pass keeps, for every registered machine,
exactly the cap-many most recent snapshots (ordering by creation time
descending and skipping the first N) — never more, never less — leaves
snapshots of unregistered owners and every machine row untouched, and a
second pass with no intervening writes is a no-op that deletes 0. -/
theorem cleanup_count_cap (db : DB) (N : Nat)
    (hm : (db.machines.map (·.id)).Nodup)
    (hs : (db.snapshots.map (·.id)).Nodup) :
    (∀ m ∈ db.machines,
        (∀ s, s ∈ snapshotsOf (cleanup_snapshots_by_count db N).1 m.id ↔
            s ∈ (sortByCreatedDesc (snapshotsOf db m.id)).take N)
      ∧ (snapshotsOf (cleanup_snapshots_by_count db N).1 m.id).length
          = min (snapshotsOf db m.id).length N)
  ∧ (∀ k, k ∉ db.machines.map (·.id) →
      snapshotsOf (cleanup_snapshots_by_count db N).1 k = snapshotsOf db k)
  ∧ (cleanup_snapshots_by_count db N).1.machines = db.machines
  ∧ cleanup_snapshots_by_count (cleanup_snapshots_by_count db N).1 N
      = ((cleanup_snapshots_by_count db N).1, 0) := by
  have hf := cleanupFold_spec N db.machines db 0 hs hm
  refine ⟨hf.2.2.2, hf.2.2.1, hf.1.1, ?_⟩
  show cleanupFold N (cleanupFold N db.machines (db, 0)).1.machines
      ((cleanupFold N db.machines (db, 0)).1, 0) = _
  rw [hf.1.1]
  apply cleanupFold_noop
  intro m hmm
  have hl := (hf.2.2.2 m hmm).2
  exact le_trans (le_of_eq hl) (Nat.min_le_right _ _)

/-- A snapshot row of the cleanup fixture machine. -/
def wSnap (i ct : Nat) : Snapshot :=
  { id := i, created_at := ct, create := { machine_id := 1 } }

/-- The registered machine of the cleanup fixture. -/
def cleanupM1 : Machine :=
  { id := 1, name := "m1", hostname := some "h1", ip_address := "10.0.0.1" }

/-- A cleanup fixture: one registered machine with three snapshots and one
orphan snapshot of an unregistered owner. -/
def cleanupDB : DB :=
  { machines := [cleanupM1],
    snapshots := [wSnap 0 10, wSnap 1 20, wSnap 2 30,
      { id := 5, created_at := 40, create := { machine_id := 9 } }],
    nextSnapshotId := 6 }

/-- Witness for C7 at the fixture with cap 2: the machine keeps min 3 2
snapshots, the orphan rows survive, and a second pass deletes nothing. -/
theorem cleanup_count_cap_witness :
    ((cleanupDB.machines.map (·.id)).Nodup
      ∧ (cleanupDB.snapshots.map (·.id)).Nodup)
  ∧ (snapshotsOf (cleanup_snapshots_by_count cleanupDB 2).1 1).length
      = min (snapshotsOf cleanupDB 1).length 2
  ∧ snapshotsOf (cleanup_snapshots_by_count cleanupDB 2).1 9
      = snapshotsOf cleanupDB 9
  ∧ cleanup_snapshots_by_count (cleanup_snapshots_by_count cleanupDB 2).1 2
      = ((cleanup_snapshots_by_count cleanupDB 2).1, 0) :=
  ⟨⟨by decide, by decide⟩,
   ((cleanup_count_cap cleanupDB 2 (by decide) (by decide)).1 cleanupM1
      (by decide)).2,
   (cleanup_count_cap cleanupDB 2 (by decide) (by decide)).2.1 9 (by decide),
   (cleanup_count_cap cleanupDB 2 (by decide) (by decide)).2.2.2⟩

end MachineHub
